import Mathlib

/-!
Verification of the coastguard track dashboard's refresh / segmentation logic.

The development shallowly embeds the two refresh routines of the repository
(the vessel-tracker layer `TrackLayer.refresh` and the history-browsing
component `Tracks.refresh`).  Both share the same segmentation loop; they
differ in the gap threshold, in the error-handling policy attached to the
poll promise, and in whether a new polling cycle cancels the previous
request token.
-/

namespace Coastguard

/-- A timestamped vessel position: the `{ dt, lat, lon }` fields of a track
point that the refresh code reads (`dt` is unix seconds).  The coordinates
are only ever copied into segments, never computed with, so they are
modelled as integers. -/
structure Pos where
  dt : Int
  lat : Int
  lon : Int
  deriving DecidableEq, Repr

/-- The projection `let p = [t.lat, t.lon]` applied to each track point
before it is pushed onto the open segment. -/
def projLatLon (t : Pos) : Int × Int := (t.lat, t.lon)

/-- State of the segmentation loop in `refresh`: `lines` holds the closed
segments pushed so far, `segment` is the open segment (`null`, i.e. `none`,
before the first gap is seen), `segmentDt` is the timestamp of the last
point processed (initialised to `0`). -/
structure SegState (α : Type) where
  lines : List (List α)
  segment : Option (List α)
  segmentDt : Int
  deriving DecidableEq, Repr

/-- `if (segment != null && segment.length > 1) { lines.push(segment); }` —
the close-a-segment step, used both at each gap and after the loop. -/
def closeSeg (lines : List (List α)) (segment : Option (List α)) : List (List α) :=
  match segment with
  | some s => if 1 < s.length then lines ++ [s] else lines
  | none => lines

/-- One iteration of the `vessel.track.forEach(t => ...)` loop of `refresh`:
compute `interval = Math.abs(t.dt - segmentDt)`; on a gap close the current
segment and start a fresh one; then push the projected point and update
`segmentDt`.  Pushing onto the initial `null` segment is a JavaScript
`TypeError`, modelled as `.error ()`.  The loop body is parameterised by the
projection applied to the point; the source instantiates it with
`[t.lat, t.lon]` (`projLatLon`), and the identity instance is used below to
reason about the timestamps of the segmented points. -/
def segStep (proj : Pos → α) (segmentMax : Nat) (st : SegState α) (t : Pos) :
    Except Unit (SegState α) :=
  let interval := (t.dt - st.segmentDt).natAbs
  let st1 : SegState α :=
    if segmentMax < interval then
      { st with lines := closeSeg st.lines st.segment, segment := some [] }
    else st
  match st1.segment with
  | none => .error ()
  | some s => .ok { lines := st1.lines, segment := some (s ++ [proj t]), segmentDt := t.dt }

/-- The whole `forEach` loop, run from the initial state
`lines = []`, `segment = null`, `segmentDt = 0`. -/
def segRun (proj : Pos → α) (segmentMax : Nat) (track : List Pos) :
    Except Unit (SegState α) :=
  track.foldlM (segStep proj segmentMax) ⟨[], none, 0⟩

/-- The segmenter: run the loop and perform the final
`if (segment != null && segment.length > 1) lines.push(segment)` clean-up. -/
def segmenterGen (proj : Pos → α) (segmentMax : Nat) (track : List Pos) :
    Except Unit (List (List α)) :=
  (segRun proj segmentMax track).map (fun st => closeSeg st.lines st.segment)

/-- `vessel.lines` as computed by the source: the segmenter applied with the
source's projection `[t.lat, t.lon]`. -/
def trackLines (segmentMax : Nat) (track : List Pos) :
    Except Unit (List (List (Int × Int))) :=
  segmenterGen projLatLon segmentMax track

/-- The segmenter instrumented to keep whole points (identity projection),
used to state timestamp properties of the output segments.  It is related to
`trackLines` by `segmenterGen_eq_map` below. -/
def segmenterP (segmentMax : Nat) (track : List Pos) :
    Except Unit (List (List Pos)) :=
  segmenterGen (fun t => t) segmentMax track

/-- Map a projection over a segmentation state (ghost construction used to
relate the source's segmenter to the instrumented one). -/
def mapSegState (f : α → β) (st : SegState α) : SegState β :=
  ⟨st.lines.map (List.map f), st.segment.map (List.map f), st.segmentDt⟩

/-- The partition of the input track induced by the gap test: `cur` is the
open chunk, `segmentDt` the timestamp of its last point.  Unlike the
segmenter itself, the partition keeps single-point runs, which makes it
suitable for describing exactly which points the segmenter drops. -/
def chunksGo (segmentMax : Nat) (segmentDt : Int) (cur : List Pos) :
    List Pos → List (List Pos)
  | [] => [cur]
  | t :: rest =>
    if segmentMax < (t.dt - segmentDt).natAbs then
      cur :: chunksGo segmentMax t.dt [t] rest
    else
      chunksGo segmentMax t.dt (cur ++ [t]) rest

/-- The gap-induced partition of a whole track: the first point always
opens the first chunk (mirroring the gap-from-`segmentDt = 0` behaviour on
the runs where the segmenter succeeds). -/
def chunks (segmentMax : Nat) : List Pos → List (List Pos)
  | [] => []
  | t :: rest => chunksGo segmentMax t.dt [t] rest

/-- Within a run of points, every two consecutive points are at most
`segmentMax` seconds apart. -/
def gapFree (segmentMax : Nat) (c : List Pos) : Prop :=
  c.Chain' (fun p q => (q.dt - p.dt).natAbs ≤ segmentMax)

/-- Two adjacent runs are split by a gap: the last point of the first and
the first point of the second are more than `segmentMax` seconds apart. -/
def gapSplit (segmentMax : Nat) (c c' : List Pos) : Prop :=
  ∀ p ∈ c.getLast?, ∀ q ∈ c'.head?, segmentMax < (q.dt - p.dt).natAbs

/-- Insert a position into a list already sorted by descending timestamp,
after any point with the same timestamp (JavaScript `Array.sort` with the
comparator `(a, b) => b.dt - a.dt` is a stable descending sort). -/
def insertDesc (p : Pos) : List Pos → List Pos
  | [] => [p]
  | q :: rest => if q.dt < p.dt then p :: q :: rest else q :: insertDesc p rest

/-- `vessel.track.sort((a, b) => b.dt - a.dt)`: stable sort by descending
timestamp. -/
def sortTrackDesc (track : List Pos) : List Pos :=
  track.foldr insertDesc []

/-- A vessel as it arrives in the HTTP response: its identifier and raw
track (the fields the refresh code reads; `name`/`info` are only echoed
into the view). -/
structure VesselIn where
  mmsi : Nat
  track : List Pos
  deriving DecidableEq, Repr

/-- A vessel after the response-processing loop: sorted track, head
position `vessel.pos = vessel.track[0]` (which is `undefined`, i.e. `none`,
for an empty track) and the computed `vessel.lines`. -/
structure Vessel where
  mmsi : Nat
  track : List Pos
  pos : Option Pos
  lines : List (List (Int × Int))
  deriving DecidableEq, Repr

/-- Gap threshold of the vessel-tracker layer: `const segmentMax = 3 * 1 * 60`. -/
def vesselSegmentMax : Nat := 3 * 1 * 60

/-- Gap threshold of the history-browsing component:
`const segmentMax = 3 * minVal * 60` for the timeframe's bin size. -/
def historySegmentMax (minVal : Nat) : Nat := 3 * minVal * 60

/-- Per-vessel body of the `.then` response handler: sort the track
descending by time, set `vessel.pos = vessel.track[0]`, and compute
`vessel.lines` with the segmenter. -/
def processVessel (segmentMax : Nat) (v : VesselIn) : Except Unit Vessel :=
  let sorted := sortTrackDesc v.track
  (trackLines segmentMax sorted).map fun lines =>
    ⟨v.mmsi, sorted, sorted.head?, lines⟩

/-- The `tracks.forEach(vessel => ...)` response-processing loop over the
whole payload. -/
def processTracks (segmentMax : Nat) (vs : List VesselIn) : Except Unit (List Vessel) :=
  vs.mapM (processVessel segmentMax)

/-- The head-marker position read unconditionally by `render`:
`position={[vessel.pos.lat, vessel.pos.lon]}` — a `TypeError` (`.error ()`)
when `vessel.pos` is `undefined`. -/
def headMarkerPos (v : Vessel) : Except Unit (Int × Int) :=
  match v.pos with
  | some p => .ok (p.lat, p.lon)
  | none => .error ()

/-- The full per-vessel pipeline: descending-time sort followed by
segmentation. -/
def pipeline (segmentMax : Nat) (track : List Pos) :
    Except Unit (List (List (Int × Int))) :=
  trackLines segmentMax (sortTrackDesc track)

/-- `settings.maxErrors` of the vessel-tracker layer. -/
def maxErrors : Nat := 5

/-- Displayed state of the vessel-tracker layer that the poll handlers
touch: `this.state.tracks` and `this.refreshErrors`. -/
structure TLState where
  tracks : List Vessel
  refreshErrors : Nat
  deriving DecidableEq, Repr

/-- Outcome of one poll: the parsed payload on success, or a
network/parse failure. -/
inductive PollOutcome where
  | success (resp : List VesselIn)
  | failure
  deriving DecidableEq, Repr

/-- The `.catch` handler of `TrackLayer.refresh`: increment
`refreshErrors`, and once it reaches `maxErrors` clear all tracks. -/
def vesselCatch (st : TLState) : TLState :=
  let e := st.refreshErrors + 1
  if maxErrors ≤ e then ⟨[], e⟩ else ⟨st.tracks, e⟩

/-- Applying one poll outcome in the vessel-tracker layer: on success the
processed payload replaces the displayed tracks and the error counter
resets to `0`; an exception thrown while processing the payload inside the
`.then` handler also lands in `.catch`; a network failure runs `.catch`. -/
def vesselApplyOutcome (st : TLState) (o : PollOutcome) : TLState :=
  match o with
  | .success resp =>
    match processTracks vesselSegmentMax resp with
    | .ok vs => ⟨vs, 0⟩
    | .error _ => vesselCatch st
  | .failure => vesselCatch st

/-- Displayed state of the history-browsing component: just the `tracks`
react state (there is no error counter). -/
structure HState where
  tracks : List Vessel
  deriving DecidableEq, Repr

/-- Applying one poll outcome in the history-browsing component: success
replaces the tracks; the `.catch` handler only logs, leaving the state
untouched. -/
def historyApplyOutcome (minVal : Nat) (st : HState) (o : PollOutcome) : HState :=
  match o with
  | .success resp =>
    match processTracks (historySegmentMax minVal) resp with
    | .ok vs => ⟨vs⟩
    | .error _ => st
  | .failure => st

/-- State of a poller's cancellation machinery: `current` is the token id
held by `requestRef`, `fresh` the next unused token id, `inFlight` the
token ids of the requests issued so far and still outstanding, `cancelled`
the token ids on which `.cancel()` has been called. -/
structure PollerState where
  current : Nat
  fresh : Nat
  inFlight : List Nat
  cancelled : List Nat
  deriving DecidableEq, Repr

/-- Poller state at mount: one token source, nothing issued. -/
def pollerInit : PollerState := ⟨0, 1, [], []⟩

/-- The synchronous prefix of `Tracks.refresh` (history variant):
`requestRef.current.cancel(); requestRef.current = axios.CancelToken.source();`
then `axios.get` with the new token.  The `.finally` handler that later
replaces the token source when the request settles is `requestSettle`
below. -/
def historyRefreshStart (st : PollerState) : PollerState :=
  ⟨st.fresh, st.fresh + 1, st.inFlight ++ [st.fresh], st.current :: st.cancelled⟩

/-- The synchronous prefix of `TrackLayer.refresh` (vessel-tracker
variant): `axios.get` with `this.requestRef.token` — no cancellation of any
prior request. -/
def vesselRefreshStart (st : PollerState) : PollerState :=
  { st with inFlight := st.inFlight ++ [st.current] }

/-- The `.finally(() => { requestRef.current = axios.CancelToken.source(); })`
step shared by both variants (`this.requestRef = axios.CancelToken.source()`
in the vessel-tracker layer): when the request carrying token `tk` settles —
fulfilled, failed, or aborted by a cancellation — it leaves the in-flight
set and a fresh token source replaces the one held by `requestRef`,
regardless of which token the remaining in-flight requests carry. -/
def requestSettle (tk : Nat) (st : PollerState) : PollerState :=
  ⟨st.fresh, st.fresh + 1, st.inFlight.erase tk, st.cancelled⟩

/-- The requests still outstanding whose token has not been cancelled —
the ones whose handlers can still fire and touch displayed state. -/
def active (st : PollerState) : List Nat :=
  st.inFlight.filter fun t => decide (t ∉ st.cancelled)

/-- Full component state of the vessel-tracker layer as seen by a refresh
tick: displayed tracks, error counter, request machinery, and whether the
recurring refresh timer is running. -/
structure TrackLayerFull where
  tracks : List Vessel
  refreshErrors : Nat
  poller : PollerState
  refreshTimerActive : Bool
  deriving DecidableEq, Repr

/-- One refresh tick of the vessel-tracker layer:
`if (!this.props.isVisible) return;` and otherwise issue the request.  The
timer fields are untouched either way. -/
def trackLayerTick (isVisible : Bool) (st : TrackLayerFull) : TrackLayerFull :=
  if isVisible then { st with poller := vesselRefreshStart st.poller } else st

/-- Full component state of the history-browsing component as seen by a
refresh tick. -/
structure TracksFull where
  tracks : List Vessel
  poller : PollerState
  refreshTimerActive : Bool
  deriving DecidableEq, Repr

/-- One refresh tick of the history-browsing component:
`if (!isVisible) return;` and otherwise cancel-and-reissue. -/
def tracksTick (isVisible : Bool) (st : TracksFull) : TracksFull :=
  if isVisible then { st with poller := historyRefreshStart st.poller } else st

/-- Concrete position with timestamp 100 used by the spec's worked example. -/
def p100 : Pos := ⟨100, 1, 10⟩

/-- Concrete position with timestamp 190 used by the spec's worked example. -/
def p190 : Pos := ⟨190, 2, 20⟩

/-- Concrete position with timestamp 5000 used by the spec's worked example. -/
def p5000 : Pos := ⟨5000, 3, 30⟩

/-- The spec's worked example input: positions with timestamps
`[100, 190, 5000]`. -/
def exampleTrack : List Pos := [p100, p190, p5000]

instance {ε α : Type} [DecidableEq ε] [DecidableEq α] : DecidableEq (Except ε α) := fun x y =>
  match x, y with
  | .ok a, .ok b =>
    if h : a = b then .isTrue (congrArg Except.ok h)
    else .isFalse (fun hh => h (Except.ok.inj hh))
  | .ok _, .error _ => .isFalse (fun hh => Except.noConfusion hh)
  | .error _, .ok _ => .isFalse (fun hh => Except.noConfusion hh)
  | .error a, .error b =>
    if h : a = b then .isTrue (congrArg Except.error h)
    else .isFalse (fun hh => h (Except.error.inj hh))

/-! ## Helper lemmas about the segmentation loop -/

/-- Closing a segment commutes with mapping a projection over its points. -/
theorem closeSeg_map (f : α → β) (lines : List (List α)) (segment : Option (List α)) :
    closeSeg (lines.map (List.map f)) (segment.map (List.map f))
      = (closeSeg lines segment).map (List.map f) := by
  cases segment with
  | none => rfl
  | some s =>
    simp only [closeSeg, Option.map_some', List.length_map]
    split <;> simp

/-- One loop iteration commutes with mapping the projection over the state:
the gap test only looks at timestamps, which the projection preserves. -/
theorem segStep_map (proj : Pos → α) (segmentMax : Nat) (st : SegState Pos) (t : Pos) :
    segStep proj segmentMax (mapSegState proj st) t
      = (segStep (fun x => x) segmentMax st t).map (mapSegState proj) := by
  obtain ⟨lines, segment, dt⟩ := st
  by_cases hg : segmentMax < (t.dt - dt).natAbs
  · simp [segStep, mapSegState, hg, closeSeg_map, Except.map]
  · cases segment with
    | none => simp [segStep, mapSegState, hg, Except.map]
    | some s => simp [segStep, mapSegState, hg, Except.map]

/-- The whole loop commutes with mapping the projection over the state. -/
theorem foldlM_segStep_map (proj : Pos → α) (segmentMax : Nat) :
    ∀ (rest : List Pos) (st : SegState Pos),
      List.foldlM (segStep proj segmentMax) (mapSegState proj st) rest
        = (List.foldlM (segStep (fun x => x) segmentMax) st rest).map (mapSegState proj) := by
  intro rest
  induction rest with
  | nil => intro st; rfl
  | cons t rest ih =>
    intro st
    simp only [List.foldlM]
    rw [segStep_map]
    cases h : segStep (fun x => x) segmentMax st t with
    | error e => rfl
    | ok st' =>
      show List.foldlM (segStep proj segmentMax) (mapSegState proj st') rest = _
      rw [ih st']
      rfl

/-- The source's segmenter is the instrumented segmenter with the
projection mapped over every point of every output segment. -/
theorem segmenterGen_eq_map (proj : Pos → α) (segmentMax : Nat) (track : List Pos) :
    segmenterGen proj segmentMax track
      = (segmenterP segmentMax track).map (List.map (List.map proj)) := by
  simp only [segmenterGen, segmenterP, segRun]
  have h0 : (⟨[], none, 0⟩ : SegState α) = mapSegState proj ⟨[], none, 0⟩ := rfl
  rw [h0, foldlM_segStep_map]
  cases List.foldlM (segStep (fun x => x) segmentMax) ⟨[], none, 0⟩ track with
  | error e => rfl
  | ok st =>
    show Except.ok (closeSeg (st.lines.map (List.map proj)) (st.segment.map (List.map proj)))
        = Except.ok ((closeSeg st.lines st.segment).map (List.map proj))
    exact congrArg Except.ok (closeSeg_map proj st.lines st.segment)

/-- Running the loop from a live state (open segment `cur`, last timestamp
`prev`) and finishing produces exactly the already-closed lines followed by
the multi-point chunks of the remaining input. -/
theorem foldlM_segStep_live (segmentMax : Nat) :
    ∀ (rest : List Pos) (lines : List (List Pos)) (s : List Pos) (prev : Int),
      (List.foldlM (segStep (fun x => x) segmentMax) ⟨lines, some s, prev⟩ rest).map
          (fun st => closeSeg st.lines st.segment)
        = .ok (lines ++ (chunksGo segmentMax prev s rest).filter (fun c => 1 < c.length)) := by
  intro rest
  induction rest with
  | nil =>
    intro lines s prev
    show Except.ok (closeSeg lines (some s)) = _
    by_cases hl : 1 < s.length <;> simp [closeSeg, chunksGo, List.filter_cons, hl]
  | cons t rest ih =>
    intro lines s prev
    simp only [List.foldlM]
    by_cases hg : segmentMax < (t.dt - prev).natAbs
    · have hstep : segStep (fun x => x) segmentMax ⟨lines, some s, prev⟩ t
          = .ok ⟨closeSeg lines (some s), some [t], t.dt⟩ := by
        simp [segStep, hg]
      rw [hstep]
      show Except.map (fun st => closeSeg st.lines st.segment)
          (List.foldlM (segStep (fun x => x) segmentMax)
            (⟨closeSeg lines (some s), some [t], t.dt⟩ : SegState Pos) rest) = _
      rw [ih]
      simp only [chunksGo, if_pos hg, List.filter_cons]
      by_cases hl : 1 < s.length <;> simp [closeSeg, hl]
    · have hstep : segStep (fun x => x) segmentMax ⟨lines, some s, prev⟩ t
          = .ok ⟨lines, some (s ++ [t]), t.dt⟩ := by
        simp [segStep, hg]
      rw [hstep]
      show Except.map (fun st => closeSeg st.lines st.segment)
          (List.foldlM (segStep (fun x => x) segmentMax)
            (⟨lines, some (s ++ [t]), t.dt⟩ : SegState Pos) rest) = _
      rw [ih]
      simp only [chunksGo, if_neg hg]

/-- The segmenter on an empty track returns no segments. -/
theorem segmenterP_nil (segmentMax : Nat) : segmenterP segmentMax [] = .ok [] := rfl

/-- Characterisation of the instrumented segmenter on a non-empty track:
if the first timestamp clears the gap test against `segmentDt = 0` it
returns the multi-point chunks, otherwise it faults on the null segment. -/
theorem segmenterP_cons (segmentMax : Nat) (t : Pos) (rest : List Pos) :
    segmenterP segmentMax (t :: rest) =
      if segmentMax < t.dt.natAbs
      then .ok ((chunks segmentMax (t :: rest)).filter (fun c => 1 < c.length))
      else .error () := by
  have habs : (t.dt - 0).natAbs = t.dt.natAbs := by rw [sub_zero]
  by_cases hg : segmentMax < t.dt.natAbs
  · rw [if_pos hg]
    show Except.map (fun st => closeSeg st.lines st.segment)
        (List.foldlM (segStep (fun x => x) segmentMax)
          (⟨[], none, 0⟩ : SegState Pos) (t :: rest)) = _
    simp only [List.foldlM]
    have hstep : segStep (fun x => x) segmentMax ⟨[], none, 0⟩ t
        = .ok ⟨[], some [t], t.dt⟩ := by
      simp [segStep, habs, hg, closeSeg]
    rw [hstep]
    show Except.map (fun st => closeSeg st.lines st.segment)
        (List.foldlM (segStep (fun x => x) segmentMax)
          (⟨[], some [t], t.dt⟩ : SegState Pos) rest) = _
    rw [foldlM_segStep_live]
    simp [chunks]
  · rw [if_neg hg]
    show Except.map (fun st => closeSeg st.lines st.segment)
        (List.foldlM (segStep (fun x => x) segmentMax)
          (⟨[], none, 0⟩ : SegState Pos) (t :: rest)) = _
    simp only [List.foldlM]
    have hstep : segStep (fun x => x) segmentMax ⟨[], none, 0⟩ t = .error () := by
      simp [segStep, habs, hg]
    rw [hstep]
    rfl

/-- Whenever the instrumented segmenter succeeds, its output is exactly the
gap-induced partition of the input with the single-point runs removed. -/
theorem segmenterP_ok_eq {segmentMax : Nat} {track : List Pos} {segs : List (List Pos)}
    (h : segmenterP segmentMax track = .ok segs) :
    segs = (chunks segmentMax track).filter (fun c => 1 < c.length) := by
  cases track with
  | nil =>
    rw [segmenterP_nil] at h
    simpa [chunks] using (Except.ok.inj h).symm
  | cons t rest =>
    rw [segmenterP_cons] at h
    by_cases hg : segmentMax < t.dt.natAbs
    · rw [if_pos hg] at h
      exact (Except.ok.inj h).symm
    · rw [if_neg hg] at h
      exact absurd h (fun hh => Except.noConfusion hh)

/-! ## Properties of the gap-induced partition -/

/-- The gap-induced partition concatenates back to the open chunk followed
by the remaining input. -/
theorem chunksGo_join (segmentMax : Nat) :
    ∀ (rest : List Pos) (prev : Int) (cur : List Pos),
      (chunksGo segmentMax prev cur rest).flatten = cur ++ rest := by
  intro rest
  induction rest with
  | nil => intro prev cur; simp [chunksGo]
  | cons t rest ih =>
    intro prev cur
    by_cases hg : segmentMax < (t.dt - prev).natAbs <;> simp [chunksGo, hg, ih]

/-- The gap-induced partition of a track concatenates back to the track:
no point is duplicated, reordered or dropped by the partition itself. -/
theorem chunks_join (segmentMax : Nat) (track : List Pos) :
    (chunks segmentMax track).flatten = track := by
  cases track <;> simp [chunks, chunksGo_join]

/-- Every chunk of the partition is gap-free: two consecutive points inside
a chunk are at most `segmentMax` apart. -/
theorem chunksGo_gapFree (segmentMax : Nat) :
    ∀ (rest : List Pos) (prev : Int) (cur : List Pos),
      gapFree segmentMax cur → (∀ p ∈ cur.getLast?, p.dt = prev) →
      ∀ c ∈ chunksGo segmentMax prev cur rest, gapFree segmentMax c := by
  intro rest
  induction rest with
  | nil =>
    intro prev cur h1 _ c hc
    simp only [chunksGo, List.mem_singleton] at hc
    exact hc ▸ h1
  | cons t rest ih =>
    intro prev cur h1 h2 c hc
    by_cases hg : segmentMax < (t.dt - prev).natAbs
    · simp only [chunksGo, if_pos hg, List.mem_cons] at hc
      rcases hc with hc | hc
      · exact hc ▸ h1
      · refine ih t.dt [t] (List.chain'_singleton t) ?_ c hc
        intro p hp
        simp only [List.getLast?_singleton, Option.mem_some_iff] at hp
        rw [hp]
    · simp only [chunksGo, if_neg hg] at hc
      refine ih t.dt (cur ++ [t]) ?_ ?_ c hc
      · refine List.chain'_append.mpr ⟨h1, List.chain'_singleton t, ?_⟩
        intro x hx y hy
        simp only [List.head?_cons, Option.mem_some_iff] at hy
        subst hy
        rw [h2 x hx]
        exact Nat.le_of_not_lt hg
      · intro p hp
        rw [List.getLast?_concat] at hp
        simp only [Option.mem_some_iff] at hp
        rw [hp]

/-- The partition of a track is chunk-wise gap-free. -/
theorem chunks_gapFree (segmentMax : Nat) (track : List Pos) :
    ∀ c ∈ chunks segmentMax track, gapFree segmentMax c := by
  cases track with
  | nil => intro c hc; simp [chunks] at hc
  | cons t rest =>
    intro c hc
    refine chunksGo_gapFree segmentMax rest t.dt [t] (List.chain'_singleton t) ?_ c hc
    intro p hp
    simp only [List.getLast?_singleton, Option.mem_some_iff] at hp
    rw [hp]

/-- The first chunk produced by the partition starts with the first point
of the open chunk. -/
theorem chunksGo_head (segmentMax : Nat) :
    ∀ (rest : List Pos) (prev : Int) (cur : List Pos), cur ≠ [] →
      ∃ c l, chunksGo segmentMax prev cur rest = c :: l ∧ c.head? = cur.head? := by
  intro rest
  induction rest with
  | nil => intro prev cur _; exact ⟨cur, [], rfl, rfl⟩
  | cons t rest ih =>
    intro prev cur hcur
    by_cases hg : segmentMax < (t.dt - prev).natAbs
    · exact ⟨cur, chunksGo segmentMax t.dt [t] rest, by simp [chunksGo, hg], rfl⟩
    · obtain ⟨c, l, heq, hh⟩ := ih t.dt (cur ++ [t]) (by simp)
      refine ⟨c, l, by simp [chunksGo, hg, heq], ?_⟩
      rw [hh]
      cases cur with
      | nil => exact absurd rfl hcur
      | cons a tl => simp

/-- Adjacent chunks of the partition are split by a gap: the two input
points straddling the chunk boundary are more than `segmentMax` apart. -/
theorem chunksGo_boundary (segmentMax : Nat) :
    ∀ (rest : List Pos) (prev : Int) (cur : List Pos), cur ≠ [] →
      (∀ p ∈ cur.getLast?, p.dt = prev) →
      (chunksGo segmentMax prev cur rest).Chain' (gapSplit segmentMax) := by
  intro rest
  induction rest with
  | nil => intro prev cur _ _; exact List.chain'_singleton cur
  | cons t rest ih =>
    intro prev cur hcur hlast
    by_cases hg : segmentMax < (t.dt - prev).natAbs
    · simp only [chunksGo, if_pos hg]
      refine List.chain'_cons'.mpr ⟨?_, ?_⟩
      · intro y hy
        obtain ⟨c, l, heq, hh⟩ := chunksGo_head segmentMax rest t.dt [t] (by simp)
        rw [heq] at hy
        simp only [List.head?_cons, Option.mem_some_iff] at hy
        subst hy
        intro p hp q hq
        rw [hh] at hq
        simp only [List.head?_cons, Option.mem_some_iff] at hq
        subst hq
        rw [hlast p hp]
        exact hg
      · refine ih t.dt [t] (by simp) ?_
        intro p hp
        simp only [List.getLast?_singleton, Option.mem_some_iff] at hp
        rw [hp]
    · simp only [chunksGo, if_neg hg]
      refine ih t.dt (cur ++ [t]) (by simp) ?_
      intro p hp
      rw [List.getLast?_concat] at hp
      simp only [Option.mem_some_iff] at hp
      rw [hp]

/-- The partition of a track has gap-split boundaries throughout. -/
theorem chunks_boundary (segmentMax : Nat) (track : List Pos) :
    (chunks segmentMax track).Chain' (gapSplit segmentMax) := by
  cases track with
  | nil => exact List.chain'_nil
  | cons t rest =>
    refine chunksGo_boundary segmentMax rest t.dt [t] (by simp) ?_
    intro p hp
    simp only [List.getLast?_singleton, Option.mem_some_iff] at hp
    rw [hp]

/-- When the source's segmenter succeeds, the instrumented segmenter
succeeds on the same input and the source's output is its projection. -/
theorem trackLines_ok {segmentMax : Nat} {track : List Pos}
    {lines : List (List (Int × Int))} (h : trackLines segmentMax track = .ok lines) :
    ∃ segs, segmenterP segmentMax track = .ok segs ∧
      lines = segs.map (List.map projLatLon) := by
  have hb : trackLines segmentMax track
      = (segmenterP segmentMax track).map (List.map (List.map projLatLon)) :=
    segmenterGen_eq_map projLatLon segmentMax track
  rw [hb] at h
  cases hp : segmenterP segmentMax track with
  | error e =>
    rw [hp] at h
    exact absurd h (fun hh => Except.noConfusion hh)
  | ok segs =>
    rw [hp] at h
    exact ⟨segs, rfl, (Except.ok.inj h).symm⟩

/-! ## Claim theorems -/

/-- C1: for every input position sequence and threshold, every segment in
the segmenter's output list has length greater than 1 — a closed segment is
appended only under the `.length > 1` check, both at each gap and at the
final close. -/
theorem c1_segments_length_gt_one (segmentMax : Nat) (track : List Pos)
    (lines : List (List (Int × Int))) (h : trackLines segmentMax track = .ok lines) :
    ∀ s ∈ lines, 1 < s.length := by
  obtain ⟨segs, hp, hl⟩ := trackLines_ok h
  have hsegs := segmenterP_ok_eq hp
  subst hl
  intro s hs
  obtain ⟨c, hc, rfl⟩ := List.mem_map.mp hs
  rw [hsegs] at hc
  have hmem := List.mem_filter.mp hc
  have hlen : 1 < c.length := by simpa using hmem.2
  simpa using hlen

/-- Witness for C1: the segmenter output on the (sorted) worked example has
a segment, and it has more than one point. -/
theorem c1_segments_length_gt_one_witness :
    1 < ([((2:Int),(20:Int)), ((1:Int),(10:Int))] : List (Int × Int)).length :=
  c1_segments_length_gt_one 180 [p5000, p190, p100]
    [[((2:Int),(20:Int)), ((1:Int),(10:Int))]] (by rfl)
    [((2:Int),(20:Int)), ((1:Int),(10:Int))] (by decide)

/-- C2: whenever the segmenter succeeds, its output segments are the
multi-point chunks of the gap-induced partition of the input; within every
chunk consecutive points are at most the threshold apart, the points
straddling every chunk boundary are more than the threshold apart, and the
partition concatenates back to the input — so two consecutive points placed
in the same output segment differ by at most the threshold, while two
consecutive input points split across a segment boundary differ by more. -/
theorem c2_gap_threshold_spec (segmentMax : Nat) (track : List Pos)
    (segs : List (List Pos)) (h : segmenterP segmentMax track = .ok segs) :
    segs = (chunks segmentMax track).filter (fun c => 1 < c.length) ∧
    (chunks segmentMax track).flatten = track ∧
    (∀ c ∈ chunks segmentMax track, gapFree segmentMax c) ∧
    (chunks segmentMax track).Chain' (gapSplit segmentMax) ∧
    trackLines segmentMax track = .ok (segs.map (List.map projLatLon)) := by
  refine ⟨segmenterP_ok_eq h, chunks_join _ _, chunks_gapFree _ _, chunks_boundary _ _, ?_⟩
  have hb : trackLines segmentMax track
      = (segmenterP segmentMax track).map (List.map (List.map projLatLon)) :=
    segmenterGen_eq_map projLatLon segmentMax track
  rw [hb, h]
  rfl

/-- Witness for C2 at the sorted worked example. -/
theorem c2_gap_threshold_spec_witness :
    ([[p190, p100]] : List (List Pos))
        = (chunks 180 [p5000, p190, p100]).filter (fun c => 1 < c.length) ∧
    trackLines 180 [p5000, p190, p100]
        = .ok (([[p190, p100]] : List (List Pos)).map (List.map projLatLon)) := by
  have h := c2_gap_threshold_spec 180 [p5000, p190, p100] [[p190, p100]] (by rfl)
  exact ⟨h.1, h.2.2.2.2⟩

/-- C3: concatenating the points of all output segments, in order, yields
the `(lat, lon)` projections of the input with the single-point runs
removed — the partition concatenates to the input, and the output flattens
to the projection of the partition with length-1 chunks dropped. -/
theorem c3_concat_reconstruction (segmentMax : Nat) (track : List Pos)
    (lines : List (List (Int × Int))) (h : trackLines segmentMax track = .ok lines) :
    (chunks segmentMax track).flatten = track ∧
    lines.flatten
      = (((chunks segmentMax track).filter (fun c => 1 < c.length)).flatten).map
          projLatLon := by
  refine ⟨chunks_join _ _, ?_⟩
  obtain ⟨segs, hp, hl⟩ := trackLines_ok h
  subst hl
  rw [segmenterP_ok_eq hp]
  exact (List.map_flatten _ _).symm

/-- Witness for C3 at the sorted worked example. -/
theorem c3_concat_reconstruction_witness :
    (chunks 180 [p5000, p190, p100]).flatten = [p5000, p190, p100] ∧
    ([[((2:Int),(20:Int)), ((1:Int),(10:Int))]] : List (List (Int × Int))).flatten
      = (((chunks 180 [p5000, p190, p100]).filter (fun c => 1 < c.length)).flatten).map
          projLatLon :=
  c3_concat_reconstruction 180 [p5000, p190, p100]
    [[((2:Int),(20:Int)), ((1:Int),(10:Int))]] (by rfl)

/-- C5: if the first point's timestamp exceeds the threshold, the first
loop iteration takes the gap branch — allocating a fresh segment before the
point is pushed — and the whole segmenter run succeeds, so the push onto
the initially-null segment variable is never reached. -/
theorem c5_first_point_gap_branch {α : Type} (proj : Pos → α) (segmentMax : Nat)
    (t : Pos) (rest : List Pos) (h : (segmentMax : Int) < t.dt) :
    segStep proj segmentMax ⟨[], none, 0⟩ t = .ok ⟨[], some [proj t], t.dt⟩ ∧
    segmenterGen proj segmentMax (t :: rest)
      = .ok (((chunksGo segmentMax t.dt [t] rest).filter (fun c => 1 < c.length)).map
          (List.map proj)) := by
  have hg : segmentMax < t.dt.natAbs := by
    have h1 : (segmentMax : Int) < (t.dt.natAbs : Int) :=
      lt_of_lt_of_le h (Int.le_natAbs)
    exact_mod_cast h1
  constructor
  · simp [segStep, sub_zero, hg, closeSeg]
  · rw [segmenterGen_eq_map, segmenterP_cons, if_pos hg]
    rfl

/-- Witness for C5: the worked example's first point, timestamp 5000, with
threshold 180. -/
theorem c5_first_point_gap_branch_witness :
    segStep projLatLon 180 ⟨[], none, 0⟩ p5000 = .ok ⟨[], some [projLatLon p5000], p5000.dt⟩ ∧
    segmenterGen projLatLon 180 (p5000 :: [p190, p100])
      = .ok (((chunksGo 180 p5000.dt [p5000] [p190, p100]).filter
          (fun c => 1 < c.length)).map (List.map projLatLon)) :=
  c5_first_point_gap_branch projLatLon 180 p5000 [p190, p100] (by decide)

/-- C4 counterexample: on positions with timestamps `[100, 190, 5000]` and
threshold 180, the pipeline does NOT produce the segment in the order
`[100, 190]` (i.e. `[(1,10), (2,20)]` in coordinates): the descending-time
sort puts the point with timestamp 190 first. -/
theorem c4_order_counterexample :
    pipeline 180 exampleTrack ≠ .ok [[((1:Int),(10:Int)), ((2:Int),(20:Int))]] := by
  decide

/-- C4 amended: on the worked example the pipeline produces exactly one
segment containing the points with timestamps 190 and 100, in
descending-time order `[190, 100]`; the point with timestamp 5000 forms a
single-point run and is dropped. -/
theorem c4_pipeline_example :
    sortTrackDesc exampleTrack = [p5000, p190, p100] ∧
    chunks 180 (sortTrackDesc exampleTrack) = [[p5000], [p190, p100]] ∧
    pipeline 180 exampleTrack = .ok [[((2:Int),(20:Int)), ((1:Int),(10:Int))]] :=
  ⟨rfl, rfl, rfl⟩

/-- C6: in the vessel-tracker layer, every poll failure increments the
consecutive-error counter and every successful poll resets it to 0; a
failure leaves the displayed tracks unchanged while the incremented counter
is still below `maxErrors = 5`, and clears them to `[]` once it reaches it. -/
theorem c6_vessel_error_policy (st : TLState) :
    (vesselApplyOutcome st .failure).refreshErrors = st.refreshErrors + 1 ∧
    (∀ resp vs, processTracks vesselSegmentMax resp = .ok vs →
      vesselApplyOutcome st (.success resp) = ⟨vs, 0⟩) ∧
    (st.refreshErrors + 1 < maxErrors →
      (vesselApplyOutcome st .failure).tracks = st.tracks) ∧
    (maxErrors ≤ st.refreshErrors + 1 →
      (vesselApplyOutcome st .failure).tracks = []) := by
  refine ⟨?_, ?_, ?_, ?_⟩
  · show (vesselCatch st).refreshErrors = st.refreshErrors + 1
    simp only [vesselCatch]
    split <;> rfl
  · intro resp vs hresp
    simp only [vesselApplyOutcome, hresp]
  · intro hlt
    show (vesselCatch st).tracks = st.tracks
    simp only [vesselCatch]
    rw [if_neg (Nat.not_le_of_lt hlt)]
  · intro hge
    show (vesselCatch st).tracks = []
    simp only [vesselCatch]
    rw [if_pos hge]

/-- Witness for C6: with four prior consecutive failures a fifth failure
reaches `maxErrors` and clears the tracks; with none, a failure leaves them
unchanged; a success resets the counter. -/
theorem c6_vessel_error_policy_witness :
    (vesselApplyOutcome ⟨[⟨7, [], none, []⟩], 4⟩ .failure).refreshErrors = 5 ∧
    vesselApplyOutcome ⟨[⟨7, [], none, []⟩], 4⟩ (.success []) = ⟨[], 0⟩ ∧
    (vesselApplyOutcome ⟨[⟨7, [], none, []⟩], 4⟩ .failure).tracks = [] ∧
    (vesselApplyOutcome ⟨[⟨7, [], none, []⟩], 0⟩ .failure).tracks = [⟨7, [], none, []⟩] := by
  have h4 := c6_vessel_error_policy ⟨[⟨7, [], none, []⟩], 4⟩
  have h0 := c6_vessel_error_policy ⟨[⟨7, [], none, []⟩], 0⟩
  exact ⟨h4.1, h4.2.1 [] [] rfl, h4.2.2.2 (by decide), h0.2.2.1 (by decide)⟩

/-- C7: in the history-browsing component a poll failure leaves the
displayed tracks completely unchanged, and any number of consecutive
failures still leaves them unchanged — nothing is ever cleared. -/
theorem c7_history_failure_noop (minVal : Nat) (st : HState) (n : Nat) :
    historyApplyOutcome minVal st .failure = st ∧
    Nat.iterate (fun s => historyApplyOutcome minVal s .failure) n st = st := by
  refine ⟨rfl, ?_⟩
  induction n generalizing st with
  | zero => rfl
  | succ n ih =>
    show Nat.iterate _ n (historyApplyOutcome minVal st .failure) = st
    exact ih st

/-! ## Poller cancellation -/

/-- C8 counterexample: in the vessel-tracker layer, issuing a second
refresh while the first request is in flight cancels nothing — both
requests stay active, so "at most one outstanding request" fails. -/
theorem c8_vessel_two_outstanding :
    active (vesselRefreshStart (vesselRefreshStart pollerInit)) = [0, 0] ∧
    ¬ (active (vesselRefreshStart (vesselRefreshStart pollerInit))).length ≤ 1 := by
  decide

/-- C8 amended: each history-variant refresh cancels the token source
currently held by `requestRef` and issues its request on a fresh token,
while a vessel-variant refresh cancels nothing, and a settling request's
`.finally` replaces the token source; but in neither variant is "at most
one outstanding request" guaranteed.  Beyond the two-refresh vessel trace
(`c8_vessel_two_outstanding`), the history variant fails it too, because
the token `requestRef` holds need not be the one an in-flight request
carries: refresh 1 issues R1 on token 1; refresh 2 cancels token 1
(aborting R1) and issues R2 on token 2; R1 settles and its `.finally`
installs fresh token 3; refresh 3 then cancels token 3 — which no request
carries — and issues R3 on token 4, leaving R2 and R3 both active. -/
theorem c8_cancellation_policy :
    (∀ st : PollerState,
        (historyRefreshStart st).cancelled = st.current :: st.cancelled ∧
        (historyRefreshStart st).current = st.fresh ∧
        (historyRefreshStart st).inFlight = st.inFlight ++ [st.fresh] ∧
        (vesselRefreshStart st).cancelled = st.cancelled ∧
        (vesselRefreshStart st).current = st.current ∧
        (vesselRefreshStart st).inFlight = st.inFlight ++ [st.current] ∧
        ∀ tk : Nat,
          (requestSettle tk st).current = st.fresh ∧
          (requestSettle tk st).cancelled = st.cancelled ∧
          (requestSettle tk st).inFlight = st.inFlight.erase tk) ∧
    active (historyRefreshStart (requestSettle 1
        (historyRefreshStart (historyRefreshStart pollerInit)))) = [2, 4] ∧
    ¬ (active (historyRefreshStart (requestSettle 1
        (historyRefreshStart (historyRefreshStart pollerInit))))).length ≤ 1 := by
  refine ⟨fun st => ⟨rfl, rfl, rfl, rfl, rfl, rfl, fun tk => ⟨rfl, rfl, rfl⟩⟩, ?_, ?_⟩
  · decide
  · decide

/-- C9: while the page is not visible a refresh tick is a no-op in both
variants — the whole component state (displayed tracks, error counter,
request machinery, recurring timer) is unchanged and no request is issued. -/
theorem c9_hidden_tick_noop (st : TrackLayerFull) (st' : TracksFull) :
    trackLayerTick false st = st ∧
    (trackLayerTick false st).poller.inFlight = st.poller.inFlight ∧
    (trackLayerTick false st).refreshErrors = st.refreshErrors ∧
    (trackLayerTick false st).refreshTimerActive = st.refreshTimerActive ∧
    tracksTick false st' = st' ∧
    (tracksTick false st').poller.inFlight = st'.poller.inFlight ∧
    (tracksTick false st').refreshTimerActive = st'.refreshTimerActive :=
  ⟨rfl, rfl, rfl, rfl, rfl, rfl, rfl⟩

/-- C10: a vessel with an empty track is processed without any guard — its
head position comes out `undefined` (`none`) — and rendering the head
marker from it faults when reading `vessel.pos.lat`. -/
theorem c10_empty_track_marker (segmentMax : Nat) (v : VesselIn) (h : v.track = []) :
    processVessel segmentMax v = .ok ⟨v.mmsi, [], none, []⟩ ∧
    headMarkerPos ⟨v.mmsi, [], none, []⟩ = .error () := by
  obtain ⟨m, tr⟩ := v
  replace h : tr = [] := h
  subst h
  exact ⟨rfl, rfl⟩

/-- Witness for C10: a concrete response vessel with an empty track. -/
theorem c10_empty_track_marker_witness :
    processVessel 180 ⟨7, []⟩ = .ok ⟨7, [], none, []⟩ ∧
    headMarkerPos ⟨7, [], none, []⟩ = .error () :=
  c10_empty_track_marker 180 ⟨7, []⟩ rfl

end Coastguard
